import Mathlib

/-!
Verification development for the internal-link-suggester repository.

The definitions below are a shallow embedding of the suggestion engine in
src/app.py: the chunker (LinkSuggester.extract_text_chunks), the TF-IDF
relevance scorer (LinkSuggester.calculate_relevance_score, built on
sklearn.TfidfVectorizer with max_features=1000, ngram_range=(1,3),
stop_words="english" and cosine_similarity), the anchor selector
(LinkSuggester.suggest_anchor_text), the two-pass diversity-constrained
selection (LinkSuggester.generate_suggestions), and the bulk-import row loop
(import_urls_from_file together with detect_page_type).

Python floats are modelled as real numbers; float rounding is not modelled.
All string inputs appearing in concrete witnesses are ASCII, for which the
embedded lower-casing and word-character tests agree with the Python regex
semantics used by the source.
-/

/-- Python whitespace, the character set removed by str.strip(). -/
def pySpace (c : Char) : Bool :=
  c = ' ' || c = '\t' || c = '\n' || c = '\r' || c = '\x0b' || c = '\x0c'

/-- Sentence-terminating punctuation of the regex [.!?]+ in extract_text_chunks. -/
def sentencePunct (c : Char) : Bool :=
  c = '.' || c = '!' || c = '?'

/-- A regex word character (ASCII fragment of \w). -/
def isWordChar (c : Char) : Bool :=
  c.isAlphanum || c = '_'

/-- Lower-cased character list of a string (Python str.lower on ASCII). -/
def toLowerList (s : String) : List Char :=
  s.toList.map Char.toLower

/-- Python str.strip(): drop whitespace from both ends. -/
def pyStrip (l : List Char) : List Char :=
  (l.rdropWhile pySpace).dropWhile pySpace

/-- str.strip() on strings. -/
def pyStripS (s : String) : String :=
  (pyStrip s.toList).asString

/-- Maximal runs of word characters, the matches of the regex token patterns. -/
def wordRunsAux : List Char → List Char → List (List Char)
  | [], acc => if acc = [] then [] else [acc.reverse]
  | c :: rest, acc =>
    if isWordChar c then wordRunsAux rest (c :: acc)
    else if acc = [] then wordRunsAux rest [] else acc.reverse :: wordRunsAux rest []

/-- All maximal word-character runs of a character list. -/
def wordRuns (l : List Char) : List (List Char) :=
  wordRunsAux l []

/-- The built-in English stop word list of sklearn (stop_words="english"). -/
def englishStopWords : List String :=
  ["a", "about", "above", "across", "after", "afterwards", "again", "against",
   "all", "almost", "alone", "along", "already", "also", "although", "always",
   "am", "among", "amongst", "amoungst", "amount", "an", "and", "another",
   "any", "anyhow", "anyone", "anything", "anyway", "anywhere", "are",
   "around", "as", "at", "back", "be", "became", "because", "become",
   "becomes", "becoming", "been", "before", "beforehand", "behind", "being",
   "below", "beside", "besides", "between", "beyond", "bill", "both",
   "bottom", "but", "by", "call", "can", "cannot", "cant", "co", "con",
   "could", "couldnt", "cry", "de", "describe", "detail", "do", "done",
   "down", "due", "during", "each", "eg", "eight", "either", "eleven",
   "else", "elsewhere", "empty", "enough", "etc", "even", "ever", "every",
   "everyone", "everything", "everywhere", "except", "few", "fifteen",
   "fifty", "fill", "find", "fire", "first", "five", "for", "former",
   "formerly", "forty", "found", "four", "from", "front", "full", "further",
   "get", "give", "go", "had", "has", "hasnt", "have", "he", "hence", "her",
   "here", "hereafter", "hereby", "herein", "hereupon", "hers", "herself",
   "him", "himself", "his", "how", "however", "hundred", "i", "ie", "if",
   "in", "inc", "indeed", "interest", "into", "is", "it", "its", "itself",
   "keep", "last", "latter", "latterly", "least", "less", "ltd", "made",
   "many", "may", "me", "meanwhile", "might", "mill", "mine", "more",
   "moreover", "most", "mostly", "move", "much", "must", "my", "myself",
   "name", "namely", "neither", "never", "nevertheless", "next", "nine",
   "no", "nobody", "none", "noone", "nor", "not", "nothing", "now",
   "nowhere", "of", "off", "often", "on", "once", "one", "only", "onto",
   "or", "other", "others", "otherwise", "our", "ours", "ourselves", "out",
   "over", "own", "part", "per", "perhaps", "please", "put", "rather", "re",
   "same", "see", "seem", "seemed", "seeming", "seems", "serious", "several",
   "she", "should", "show", "side", "since", "sincere", "six", "sixty",
   "so", "some", "somehow", "someone", "something", "sometime", "sometimes",
   "somewhere", "still", "such", "system", "take", "ten", "than", "that",
   "the", "their", "them", "themselves", "then", "thence", "there",
   "thereafter", "thereby", "therefore", "therein", "thereupon", "these",
   "they", "thick", "thin", "third", "this", "those", "though", "three",
   "through", "throughout", "thru", "thus", "to", "together", "too", "top",
   "toward", "towards", "twelve", "twenty", "two", "un", "under", "until",
   "up", "upon", "us", "very", "via", "was", "we", "well", "were", "what",
   "whatever", "when", "whence", "whenever", "where", "whereafter",
   "whereas", "whereby", "wherein", "whereupon", "wherever", "whether",
   "which", "while", "whither", "who", "whoever", "whole", "whom", "whose",
   "why", "will", "with", "within", "without", "would", "yet", "you",
   "your", "yours", "yourself", "yourselves"]

/-- TfidfVectorizer tokens of a document: lower-case, keep maximal word runs of
length at least two (token_pattern \b\w\w+\b), remove English stop words. -/
def vecTokens (s : String) : List String :=
  (((wordRuns (toLowerList s)).filter (fun r => 2 ≤ r.length)).map
    List.asString).filter (fun t => t ∉ englishStopWords)

/-- The n-grams of length n of a token list, joined with single spaces. -/
def ngramsN (toks : List String) (n : ℕ) : List String :=
  (List.range (toks.length + 1 - n)).map
    (fun i => String.intercalate " " ((toks.drop i).take n))

/-- All 1-, 2- and 3-grams of a token list (ngram_range=(1, 3)). -/
def allGrams (toks : List String) : List String :=
  ngramsN toks 1 ++ ngramsN toks 2 ++ ngramsN toks 3

/-- Order used by max_features pruning: larger corpus count first, ties in
lexicographic order. numpy argsort leaves the order of ties unspecified; no
input in this development comes near the 1000-feature cap, so the tie rule is
never exercised. -/
def freqBefore (grams : List String) (a b : String) : Bool :=
  grams.count b < grams.count a || (grams.count a = grams.count b && a < b)

/-- Insertion sort by a Boolean order, used only for max_features pruning. -/
def insertFreq (grams : List String) (x : String) : List String → List String
  | [] => [x]
  | y :: ys =>
    if freqBefore grams x y then x :: y :: ys else y :: insertFreq grams x ys

/-- Sort a feature list by descending corpus frequency. -/
def sortByFreq (grams : List String) : List String → List String
  | [] => []
  | x :: xs => insertFreq grams x (sortByFreq grams xs)

/-- The fitted vocabulary for the two-document corpus [d0, d1]: all distinct
n-grams, pruned to the 1000 most frequent when larger (max_features=1000). -/
def featList (d0 d1 : String) : List String :=
  let g0 := allGrams (vecTokens d0)
  let g1 := allGrams (vecTokens d1)
  let v := (g0 ++ g1).dedup
  if v.length ≤ 1000 then v else (sortByFreq (g0 ++ g1) v).take 1000

/-- Per-feature raw term counts (tf) of the two documents, in vocabulary
order. -/
def countPairs (d0 d1 : String) : List (ℕ × ℕ) :=
  let g0 := allGrams (vecTokens d0)
  let g1 := allGrams (vecTokens d1)
  (featList d0 d1).map (fun t => (g0.count t, g1.count t))

/-- Keyword tokens of the overlap signal: lower-case the document, then take
the distinct maximal word runs of length at least four (set of re.findall of
\b\w{4,}\b over the lower-cased text). -/
def kwWords (s : String) : List String :=
  (((wordRuns (toLowerList s)).filter (fun r => 4 ≤ r.length)).map List.asString).dedup

/-! ## Real-valued TF-IDF layer

smooth_idf is on: idf(t) = log((1 + n) / (1 + df(t))) + 1 with n = 2 documents,
so idf(t) is determined by which of the two raw counts are positive. The
cosine of the two l2-normalised tf-idf rows equals dot / ("norm0" * "norm1");
sklearn maps a zero row to a zero row, which coincides with the Lean
convention x / 0 = 0 because a zero norm forces a zero dot product. -/

/-- Smooth idf of one feature, as a function of its raw counts in the two
documents. -/
noncomputable def idfPair (a b : ℕ) : ℝ :=
  Real.log (3 / (1 + ((if 0 < a then 1 else 0) + (if 0 < b then 1 else 0) : ℝ))) + 1

/-- Dot product of the two tf-idf rows. -/
noncomputable def dotTfidf (cs : List (ℕ × ℕ)) : ℝ :=
  (cs.map (fun p => (p.1 : ℝ) * (p.2 : ℝ) * idfPair p.1 p.2 ^ 2)).sum

/-- Squared euclidean norm of the first tf-idf row. -/
noncomputable def normSqFst (cs : List (ℕ × ℕ)) : ℝ :=
  (cs.map (fun p => ((p.1 : ℝ) * idfPair p.1 p.2) ^ 2)).sum

/-- Squared euclidean norm of the second tf-idf row. -/
noncomputable def normSqSnd (cs : List (ℕ × ℕ)) : ℝ :=
  (cs.map (fun p => ((p.2 : ℝ) * idfPair p.1 p.2) ^ 2)).sum

/-- Cosine similarity of the two tf-idf rows. -/
noncomputable def cosineSim (cs : List (ℕ × ℕ)) : ℝ :=
  dotTfidf cs / (Real.sqrt (normSqFst cs) * Real.sqrt (normSqSnd cs))

/-! ## Data model -/

/-- One catalog entry, the value stored by URLDatabase.add_url. Every field is
always present in stored data, which is why dict .get calls with defaults in
the source always return the stored value. The spec calls h1 the destination
primary_heading, h2 its sub_headings, meta_description its summary and
page_type its category. -/
structure UrlData where
  h1 : String
  h2 : List String
  title : String
  meta_description : String
  page_type : String
deriving DecidableEq, Repr

/-- The URL catalog: insertion-ordered pairs, unique keys, as a Python dict. -/
abbrev Db := List (String × UrlData)

/-- One chunk produced by extract_text_chunks. The position is an Int because
str.find can return -1. -/
structure Chunk where
  text : String
  position : Int
deriving DecidableEq, Repr

/-- One suggestion record built by generate_suggestions. -/
structure Suggestion where
  url : String
  anchor_text : String
  context : String
  score : ℝ
  position : Int
  target_h1 : String
  target_title : String
  page_type : String

/-! ## Chunker (LinkSuggester.extract_text_chunks) -/

/-- Inside a run of sentence punctuation: skip it, then resume scanning. -/
def splitPunctSkip : List Char → List (List Char)
  | [] => [[]]
  | c :: rest =>
    if sentencePunct c then splitPunctSkip rest else splitPunctScan rest [c]
where
  /-- Scanning a piece: accumulate until punctuation. -/
  splitPunctScan : List Char → List Char → List (List Char)
  | [], acc => [acc.reverse]
  | c :: rest, acc =>
    if sentencePunct c then acc.reverse :: splitPunctSkip rest
    else splitPunctScan rest (c :: acc)

/-- re.split of [.!?]+, applied to the whole content. -/
def splitPunct (l : List Char) : List (List Char) :=
  splitPunctSkip.splitPunctScan l []

/-- Does the needle occur at position i of the haystack? -/
def matchesAt (hay needle : List Char) (i : ℕ) : Bool :=
  needle.isPrefixOf (hay.drop i)

/-- Python str.find(needle, start): first occurrence index at or after start,
or -1; a negative start counts from the end of the haystack. -/
def strFind (hay needle : List Char) (start : Int) : Int :=
  let n := hay.length
  let b : ℕ := (if start < 0 then max (start + n) 0 else start).toNat
  match ((List.range (n + 1)).filter (fun i => b ≤ i && matchesAt hay needle i)).head? with
  | some i => (i : Int)
  | none => -1

/-- The sentence loop of extract_text_chunks: state is the running buffer, the
current position and the chunks flushed so far. -/
def chunkLoop (content : List Char) (size : ℕ) :
    List (List Char) → List Char → Int → List Chunk → List Char × Int × List Chunk
  | [], cur, start, acc => (cur, start, acc)
  | piece :: rest, cur, start, acc =>
    let s := pyStrip piece
    if s = [] then chunkLoop content size rest cur start acc
    else if cur.length + s.length < size then
      chunkLoop content size rest (cur ++ s ++ ('.' :: [' '])) start acc
    else
      let acc2 := if cur = [] then acc else acc ++ [⟨(pyStrip cur).asString, start⟩]
      chunkLoop content size rest (s ++ ('.' :: [' '])) (strFind content s start) acc2

/-- LinkSuggester.extract_text_chunks (chunk_size defaults to 200 at the call
site in generate_suggestions). -/
def extract_text_chunks (content : String) (chunk_size : ℕ) : List Chunk :=
  let l := content.toList
  let r := chunkLoop l chunk_size (splitPunct l) [] 0 []
  if r.1 = [] then r.2.2 else r.2.2 ++ [⟨(pyStrip r.1).asString, r.2.1⟩]

/-! ## Relevance scorer (LinkSuggester.calculate_relevance_score) -/

/-- LinkSuggester.calculate_relevance_score. The try block fails exactly when
the fitted vocabulary is empty (sklearn raises ValueError), and the bare
except then yields 0.0. The url_data parameter is unused, as in the source.
The keyword overlap uses the content parameter, to which generate_suggestions
passes the chunk text. -/
noncomputable def calculate_relevance_score (content_text url_text : String)
    (_url_data : UrlData) (content : String) : ℝ :=
  if featList content_text url_text = [] then 0
  else
    let similarity := cosineSim (countPairs content_text url_text)
    let content_words := kwWords content
    let url_words := kwWords url_text
    let keyword_overlap : ℝ :=
      if content_words = [] then 0
      else ((content_words.inter url_words).length : ℝ) / (content_words.length : ℝ)
    similarity * 0.7 + keyword_overlap * 0.3

/-! ## Anchor selector (LinkSuggester.suggest_anchor_text) -/

/-- Bool substring test, Python needle in haystack. -/
def containsSub (needle hay : List Char) : Bool :=
  (List.range (hay.length + 1)).any (fun i => matchesAt hay needle i)

/-- First occurrence index, Python str.index; only called on occurring
needles. -/
def firstIdx (hay needle : List Char) : ℕ :=
  match ((List.range (hay.length + 1)).filter (fun i => matchesAt hay needle i)).head? with
  | some i => i
  | none => 0

/-- chunk[start : start + n] on character lists. -/
def sliceAt (l : List Char) (start n : ℕ) : List Char :=
  (l.drop start).take n

/-- max(candidates, key=len): the first candidate of maximal length. -/
def maxByLen (c : List Char) (cs : List (List Char)) : List Char :=
  cs.foldl (fun b x => if b.length < x.length then x else b) c

/-- LinkSuggester.suggest_anchor_text. The final fallback in the source is
url_data.get("h1", url_data.get("title", "Learn more")); since stored entries
always carry both keys, it returns the h1 field unconditionally, even when
that field is the empty string. -/
def suggest_anchor_text (chunk : String) (url_data : UrlData) : String :=
  let chunkLow := toLowerList chunk
  let chunkChars := chunk.toList
  let h1 := toLowerList url_data.h1
  let title := toLowerList url_data.title
  let cands1 : List (List Char) :=
    if h1 ≠ [] && containsSub h1 chunkLow then
      [sliceAt chunkChars (firstIdx chunkLow h1) h1.length] else []
  let cands2 : List (List Char) :=
    cands1 ++ (if title ≠ [] && containsSub title chunkLow then
      [sliceAt chunkChars (firstIdx chunkLow title) title.length] else [])
  let cands3 : List (List Char) :=
    cands2 ++ url_data.h2.filterMap (fun h =>
      let hLow := toLowerList h
      if containsSub hLow chunkLow then
        some (sliceAt chunkChars (firstIdx chunkLow hLow) hLow.length) else none)
  match cands3 with
  | [] => url_data.h1
  | c :: cs => (maxByLen c cs).asString

/-! ## Suggestion generator (LinkSuggester.generate_suggestions) -/

/-- The combined descriptive text of one destination, built once per call:
f"{title}. {h1}. {meta_description}. {joined h2}". -/
def combinedText (d : UrlData) : String :=
  d.title ++ ". " ++ d.h1 ++ ". " ++ d.meta_description ++ ". " ++
    String.intercalate " " d.h2

/-- The score of one (chunk, destination) pair as ranked: the raw relevance
score, multiplied by 1.1 for Product, Glossary and Guide pages and by 1.05
for Landing Page ones (the category the spec data model names Landing). -/
noncomputable def boostedScore (chunk_text : String) (d : UrlData) : ℝ :=
  let score := calculate_relevance_score chunk_text (combinedText d) d chunk_text
  if d.page_type = "Product" ∨ d.page_type = "Glossary" ∨ d.page_type = "Guide" then
    score * 1.1
  else if d.page_type = "Landing Page" then score * 1.05
  else score

open Classical in
/-- Stable descending insertion by a real-valued key: x goes after every
element whose key is at least the key of x. -/
noncomputable def insertDescBy (key : α → ℝ) (x : α) : List α → List α
  | [] => [x]
  | y :: ys => if key y < key x then x :: y :: ys else y :: insertDescBy key x ys

/-- Python list.sort(key=..., reverse=True): the unique stable descending
sort, realised by left-fold insertion. -/
noncomputable def sortDescBy (key : α → ℝ) (l : List α) : List α :=
  l.foldl (fun acc x => insertDescBy key x acc) []

/-- The suggestion record built for one retained (chunk, destination) pair. -/
noncomputable def mkSuggestion (c : Chunk) (p : (String × UrlData) × ℝ) : Suggestion :=
  { url := p.1.1
    anchor_text := suggest_anchor_text c.text p.1.2
    context := (c.text.toList.take 150).asString ++ "..."
    score := p.2
    position := c.position
    target_h1 := p.1.2.h1
    target_title := p.1.2.title
    page_type := p.1.2.page_type }

open Classical in
/-- The per-chunk candidate pass of generate_suggestions: score every
destination, sort descending, keep the top 3 with score above 0.20. The
scored list carries the catalog entry alongside the url, standing for the
url_database[url] dict lookups of the source. -/
noncomputable def chunkSuggestions (db : Db) (c : Chunk) : List Suggestion :=
  let scores : List ((String × UrlData) × ℝ) :=
    db.map (fun p => (p, boostedScore c.text p.2))
  (((sortDescBy (fun q => q.2) scores).take 3).filter
    (fun q => 0.20 < q.2)).map (mkSuggestion c)

open Classical in
/-- First selection pass: walk the sorted candidates, skipping seen urls and
candidates whose category quota is filled (Blog at 0.4 * limit, every
category at 0.5 * limit), accepting scores above 0.35, and stopping as soon
as the limit is reached. Returns the selection and the seen-url set. -/
noncomputable def passOne (limit : ℕ) :
    List Suggestion → List String → (String → ℕ) → List Suggestion →
      List Suggestion × List String
  | [], seen, _, acc => (acc, seen)
  | s :: rest, seen, counts, acc =>
    if s.url ∈ seen then passOne limit rest seen counts acc
    else if s.page_type = "Blog" ∧ ((counts s.page_type : ℝ) ≥ (limit : ℝ) * 0.4) then
      passOne limit rest seen counts acc
    else if (counts s.page_type : ℝ) ≥ (limit : ℝ) * 0.5 then
      passOne limit rest seen counts acc
    else if s.score > 0.35 then
      if limit ≤ (acc ++ [s]).length then (acc ++ [s], s.url :: seen)
      else
        passOne limit rest (s.url :: seen)
          (fun t => if t = s.page_type then counts s.page_type + 1 else counts t)
          (acc ++ [s])
    else passOne limit rest seen counts acc

open Classical in
/-- Second selection pass: re-walk the same sorted candidates ignoring
quotas, accepting any unseen url with score above 0.25 until the limit is
reached. -/
noncomputable def passTwo (limit : ℕ) :
    List Suggestion → List String → List Suggestion → List Suggestion
  | [], _, acc => acc
  | s :: rest, seen, acc =>
    if s.url ∈ seen then passTwo limit rest seen acc
    else if s.score > 0.25 then
      if limit ≤ (acc ++ [s]).length then acc ++ [s]
      else passTwo limit rest (s.url :: seen) (acc ++ [s])
    else passTwo limit rest seen acc

/-- LinkSuggester.generate_suggestions. -/
noncomputable def generate_suggestions (content : String) (url_database : Db)
    (max_suggestions : ℕ) : List Suggestion :=
  if url_database = [] then []
  else
    let chunks := extract_text_chunks content 200
    let all_suggestions := (chunks.map (chunkSuggestions url_database)).flatten
    let sorted := sortDescBy (fun s => s.score) all_suggestions
    let p1 := passOne max_suggestions sorted [] (fun _ => 0) []
    let diverse :=
      if p1.1.length < max_suggestions then passTwo max_suggestions sorted p1.2 p1.1
      else p1.1
    (sortDescBy (fun s => s.score) diverse).take max_suggestions

/-! ## Bulk import (import_urls_from_file row loop, detect_page_type) -/

/-- detect_page_type: keyword matching on the lower-cased concatenation of
url, title and h1; the first matching category wins, default Other. -/
def detect_page_type (url title h1 : String) : String :=
  let combined := toLowerList url ++ (' ' :: toLowerList title) ++ (' ' :: toLowerList h1)
  if ["product", "/product/", "/shop/", "buy", "price", "/item/"].any
      (fun w => containsSub w.toList combined) then "Product"
  else if ["glossary", "definition", "what is", "meaning of", "/glossary/", "/define/"].any
      (fun w => containsSub w.toList combined) then "Glossary"
  else if ["guide", "tutorial", "how to", "step by step", "complete guide", "ultimate guide"].any
      (fun w => containsSub w.toList combined) then "Guide"
  else if ["/blog/", "article", "/post/", "/news/", "tips"].any
      (fun w => containsSub w.toList combined) then "Blog"
  else if ["category", "categories", "/cat/", "collection"].any
      (fun w => containsSub w.toList combined) then "Category"
  else if ["landing", "services", "solutions"].any
      (fun w => containsSub w.toList combined) then "Landing Page"
  else "Other"

/-- One parsed row of the imported table, after column normalisation: the
required columns url, title, h1 and the optional ones, missing optional
values being the empty string. pandas renders missing cells as "nan" once
passed through str(). -/
structure Row where
  url : String
  title : String
  h1 : String
  h2 : String
  meta_description : String
  page_type : String
deriving DecidableEq, Repr

/-- The required-field check of the import loop: url, title or h1 stripped
empty or the literal string nan. -/
def rowInvalid (r : Row) : Bool :=
  pyStripS r.url = "" || pyStripS r.url = "nan" ||
  pyStripS r.title = "" || pyStripS r.title = "nan" ||
  pyStripS r.h1 = "" || pyStripS r.h1 = "nan"

/-- URLDatabase.add_url: overwrite an existing key in place, else append. -/
def add_url (db : Db) (url : String) (d : UrlData) : Db :=
  if db.any (fun p => p.1 = url) then
    db.map (fun p => if p.1 = url then (url, d) else p)
  else db ++ [(url, d)]

/-- The h2 cell parser: split on semicolons when present, else on commas,
strip the parts and drop empty ones. -/
def parseH2 (h2_raw : String) : List String :=
  if h2_raw = "" || h2_raw = "nan" then []
  else if (';' : Char) ∈ h2_raw.toList then
    ((h2_raw.splitOn ";").map pyStripS).filter (fun h => h ≠ "")
  else ((h2_raw.splitOn ",").map pyStripS).filter (fun h => h ≠ "")

/-- Processing of one valid row: strip the fields, parse h2, normalise the
meta description, auto-detect the page type when absent, store. -/
def addRow (db : Db) (r : Row) : Db :=
  let url := pyStripS r.url
  let title := pyStripS r.title
  let h1 := pyStripS r.h1
  let h2_list := parseH2 r.h2
  let meta0 := pyStripS r.meta_description
  let meta := if meta0 = "nan" then "" else meta0
  let pt0 := pyStripS r.page_type
  let pt := if pt0 = "nan" || pt0 = "" then detect_page_type url title h1 else pt0
  add_url db url ⟨h1, h2_list, title, meta, pt⟩

/-- The error message recorded for one malformed row; idx is the zero-based
DataFrame index, idx + 2 the spreadsheet row number. -/
def rowErrorMsg (idx : ℕ) : String :=
  "Row " ++ toString (idx + 2) ++ ": Missing required field (URL, Title, or H1)"

/-- The row loop of import_urls_from_file, over the enumerated rows. -/
def importLoop : List (ℕ × Row) → ℕ → List String → Db → ℕ × List String × Db
  | [], imported, errors, db => (imported, errors, db)
  | (idx, r) :: rest, imported, errors, db =>
    if rowInvalid r then importLoop rest imported (errors ++ [rowErrorMsg idx]) db
    else importLoop rest (imported + 1) errors (addRow db r)

/-- import_urls_from_file, modelled from the row loop onward: the file
parsing and column normalisation preceding it are the tabular-file boundary,
and the claim supposes the required columns present. Returns the imported
count, the error messages and the updated catalog. -/
def import_urls_from_file (rows : List Row) (db : Db) : ℕ × List String × Db :=
  importLoop rows.enum 0 [] db

/-! ## Definitions written from the words of the spec, for refinement claims -/

/-- The category boost mapping as the spec states it: 1.10 for Product,
Glossary and Guide, 1.05 for the landing category (named Landing in the spec
data model, stored as the string "Landing Page" by the code), 1.0 otherwise. -/
noncomputable def categoryBoost_spec (category : String) : ℝ :=
  if category = "Product" ∨ category = "Glossary" ∨ category = "Guide" then 1.1
  else if category = "Landing Page" then 1.05
  else 1

/-- The keyword token set as the spec words it: lower-cased word-like tokens
of length at least four, as a finite set. -/
def kwTokensSpec (s : String) : Finset String :=
  (((wordRuns (toLowerList s)).filter (fun r => 4 ≤ r.length)).map List.asString).toFinset

/-- Keyword overlap as the spec words it: the shared tokens divided by the
chunk tokens, zero when the chunk has none. -/
noncomputable def keyword_overlap_spec (chunk_text dest_text : String) : ℝ :=
  if kwTokensSpec chunk_text = ∅ then 0
  else ((kwTokensSpec chunk_text ∩ kwTokensSpec dest_text).card : ℝ) /
    ((kwTokensSpec chunk_text).card : ℝ)

/-! ## Concrete inputs used by witnesses and counterexamples -/

/-- The end-to-end example content of the spec. -/
def exContent : String :=
  "SEO guides help beginners. Keyword research is step one. Content marketing drives traffic."

/-- Destination A of the end-to-end example. -/
def exDataA : UrlData :=
  ⟨"Ultimate SEO Guide", [], "SEO Guide", "", "Guide"⟩

/-- Destination B of the end-to-end example. -/
def exDataB : UrlData :=
  ⟨"Find Keywords Fast", [], "Keyword Tool", "", "Product"⟩

/-- The two-destination catalog of the end-to-end example. -/
def exDb : Db :=
  [("https://example.com/seo-guide", exDataA), ("https://example.com/keyword-tool", exDataB)]

/-- A content string whose words are all sklearn stop words, used to exhibit
the quota overflow of the second selection pass. -/
def qContent : String := "Whatever becomes nothing anyhow"

/-- First Blog destination of the quota example. -/
def qData1 : UrlData :=
  ⟨"Nothing Anyhow Xq", [], "Whatever Becomes", "", "Blog"⟩

/-- Second Blog destination of the quota example. -/
def qData2 : UrlData :=
  ⟨"Nothing Anyhow Zq", [], "Whatever Becomes", "", "Blog"⟩

/-- The two-Blog catalog of the quota example. -/
def qDb : Db :=
  [("https://example.com/b1", qData1), ("https://example.com/b2", qData2)]

/-- Count pairs of (example content, destination A text): 29 features of the
chunk alone, the shared unigram seo with counts (1, 2), and the remaining
features of the destination text alone. -/
def exPairsA : List (ℕ × ℕ) :=
  [(1, 0), (1, 0), (1, 0), (1, 0), (1, 0), (1, 0), (1, 0), (1, 0), (1, 0), (1, 0),
   (1, 0), (1, 0), (1, 0), (1, 0), (1, 0), (1, 0), (1, 0), (1, 0), (1, 0), (1, 0),
   (1, 0), (1, 0), (1, 0), (1, 0), (1, 0), (1, 0), (1, 0), (1, 0), (1, 0),
   (0, 1), (1, 2), (0, 2), (0, 1), (0, 1), (0, 2), (0, 1), (0, 1), (0, 1)]

/-- Count pairs of (example content, destination B text): the shared unigram
keyword with counts (1, 1). -/
def exPairsB : List (ℕ × ℕ) :=
  [(1, 0), (1, 0), (1, 0), (1, 0), (1, 0), (1, 0), (1, 0), (1, 0), (1, 0), (1, 0),
   (1, 0), (1, 0), (1, 0), (1, 0), (1, 0), (1, 0), (1, 0), (1, 0), (1, 0), (1, 0),
   (1, 0), (1, 0), (1, 0), (1, 0), (1, 0), (1, 0), (1, 0), (1, 0), (1, 0),
   (1, 1), (0, 1), (0, 1), (0, 1), (0, 1), (0, 1), (0, 1), (0, 1), (0, 1)]

/-- The single chunk text of the quota example: the whole content plus the
period appended by the chunk buffer. -/
def qChunkText : String := "Whatever becomes nothing anyhow."

/-- The suggestion emitted for the first Blog destination. -/
noncomputable def qSugg1 : Suggestion :=
  { url := "https://example.com/b1"
    anchor_text := "Whatever becomes"
    context := "Whatever becomes nothing anyhow...."
    score := 0.3
    position := 0
    target_h1 := "Nothing Anyhow Xq"
    target_title := "Whatever Becomes"
    page_type := "Blog" }

/-- The suggestion emitted for the second Blog destination. -/
noncomputable def qSugg2 : Suggestion :=
  { url := "https://example.com/b2"
    anchor_text := "Whatever becomes"
    context := "Whatever becomes nothing anyhow...."
    score := 0.3
    position := 0
    target_h1 := "Nothing Anyhow Zq"
    target_title := "Whatever Becomes"
    page_type := "Blog" }

/-! ## Basic lemmas about the embedding -/

/-- idf of a feature of the first document only. -/
lemma idfPair_one_zero : idfPair 1 0 = Real.log (3 / 2) + 1 := by
  unfold idfPair; norm_num

/-- idf of a feature of the second document only. -/
lemma idfPair_zero_one : idfPair 0 1 = Real.log (3 / 2) + 1 := by
  unfold idfPair; norm_num

/-- idf of a feature occurring twice in the second document only. -/
lemma idfPair_zero_two : idfPair 0 2 = Real.log (3 / 2) + 1 := by
  unfold idfPair; norm_num

/-- idf of a shared feature is exactly 1. -/
lemma idfPair_one_one : idfPair 1 1 = 1 := by
  unfold idfPair; norm_num

/-- idf of a shared feature with count two on the second side. -/
lemma idfPair_one_two : idfPair 1 2 = 1 := by
  unfold idfPair; norm_num

/-- The smooth idf weight log(3/2) + 1 is at least 1. -/
lemma one_le_idfBase : (1 : ℝ) ≤ Real.log (3 / 2) + 1 := by
  have h : (0 : ℝ) ≤ Real.log (3 / 2) := Real.log_nonneg (by norm_num)
  linarith

/-- Inserting into the stable sort permutes. -/
lemma insertDescBy_perm (key : α → ℝ) (x : α) (l : List α) :
    List.Perm (insertDescBy key x l) (x :: l) := by
  induction l with
  | nil => simp [insertDescBy]
  | cons y ys ih =>
    rw [insertDescBy]
    by_cases h : key y < key x
    · rw [if_pos h]
    · rw [if_neg h]
      exact (ih.cons y).trans (List.Perm.swap x y ys)

/-- The stable descending sort is a permutation of its input. -/
lemma sortDescBy_perm (key : α → ℝ) (l : List α) :
    List.Perm (sortDescBy key l) l := by
  suffices h : ∀ acc : List α,
      List.Perm (l.foldl (fun acc x => insertDescBy key x acc) acc) (acc ++ l) by
    simpa using h []
  induction l with
  | nil => simp
  | cons x xs ih =>
    intro acc
    have h1 : (x :: xs).foldl (fun acc x => insertDescBy key x acc) acc
        = xs.foldl (fun acc x => insertDescBy key x acc) (insertDescBy key x acc) := rfl
    rw [h1]
    refine ((ih _).trans ?_)
    refine ((insertDescBy_perm key x acc).append_right xs).trans ?_
    exact (List.perm_middle).symm

/-- Membership is preserved by the stable sort. -/
lemma mem_sortDescBy {key : α → ℝ} {l : List α} {x : α} :
    x ∈ sortDescBy key l ↔ x ∈ l :=
  (sortDescBy_perm key l).mem_iff

/-- A chunk on which every destination scores at or below the 0.20 candidate
threshold contributes no candidate suggestions. -/
lemma chunkSuggestions_eq_nil {db : Db} {c : Chunk}
    (h : ∀ p ∈ db, ¬ (0.20 : ℝ) < boostedScore c.text p.2) :
    chunkSuggestions db c = [] := by
  unfold chunkSuggestions
  rw [List.map_eq_nil_iff, List.filter_eq_nil_iff]
  intro q hq
  have hq2 : q ∈ sortDescBy (fun q => q.2) (db.map fun p => (p, boostedScore c.text p.2)) :=
    List.mem_of_mem_take hq
  rw [mem_sortDescBy, List.mem_map] at hq2
  obtain ⟨p, hp, rfl⟩ := hq2
  simpa using h p hp

/-- A nonempty count-pair list certifies a nonempty fitted vocabulary. -/
lemma featList_ne_nil_of_countPairs {d0 d1 : String} {x : ℕ × ℕ} {xs : List (ℕ × ℕ)}
    (h : countPairs d0 d1 = x :: xs) : featList d0 d1 ≠ [] := by
  intro hnil
  rw [countPairs] at h
  rw [hnil] at h
  simp at h

/-! ## Evaluation of the end-to-end example scores -/

set_option maxRecDepth 20000 in
/-- The fitted counts of the (content, A) pair. -/
lemma countPairs_exA : countPairs exContent (combinedText exDataA) = exPairsA := by
  decide

set_option maxRecDepth 20000 in
/-- The fitted counts of the (content, B) pair. -/
lemma countPairs_exB : countPairs exContent (combinedText exDataB) = exPairsB := by
  decide

/-- Dot product of the tf-idf rows of the (content, A) pair. -/
lemma dotTfidf_exA : dotTfidf exPairsA = 2 := by
  simp only [exPairsA, dotTfidf, List.map_cons, List.map_nil, List.sum_cons,
    List.sum_nil, idfPair_one_zero, idfPair_zero_one, idfPair_zero_two, idfPair_one_two]
  push_cast
  ring

/-- Squared norm of the chunk row of the (content, A) pair. -/
lemma normSqFst_exA : normSqFst exPairsA = 1 + 29 * (Real.log (3 / 2) + 1) ^ 2 := by
  simp only [exPairsA, normSqFst, List.map_cons, List.map_nil, List.sum_cons,
    List.sum_nil, idfPair_one_zero, idfPair_zero_one, idfPair_zero_two, idfPair_one_two]
  push_cast
  ring

/-- Squared norm of the destination row of the (content, A) pair. -/
lemma normSqSnd_exA : normSqSnd exPairsA = 4 + 14 * (Real.log (3 / 2) + 1) ^ 2 := by
  simp only [exPairsA, normSqSnd, List.map_cons, List.map_nil, List.sum_cons,
    List.sum_nil, idfPair_one_zero, idfPair_zero_one, idfPair_zero_two, idfPair_one_two]
  push_cast
  ring

/-- Dot product of the tf-idf rows of the (content, B) pair. -/
lemma dotTfidf_exB : dotTfidf exPairsB = 1 := by
  simp only [exPairsB, dotTfidf, List.map_cons, List.map_nil, List.sum_cons,
    List.sum_nil, idfPair_one_zero, idfPair_zero_one, idfPair_one_one]
  push_cast
  ring

/-- Squared norm of the chunk row of the (content, B) pair. -/
lemma normSqFst_exB : normSqFst exPairsB = 1 + 29 * (Real.log (3 / 2) + 1) ^ 2 := by
  simp only [exPairsB, normSqFst, List.map_cons, List.map_nil, List.sum_cons,
    List.sum_nil, idfPair_one_zero, idfPair_zero_one, idfPair_one_one]
  push_cast
  ring

/-- Squared norm of the destination row of the (content, B) pair. -/
lemma normSqSnd_exB : normSqSnd exPairsB = 1 + 8 * (Real.log (3 / 2) + 1) ^ 2 := by
  simp only [exPairsB, normSqSnd, List.map_cons, List.map_nil, List.sum_cons,
    List.sum_nil, idfPair_one_zero, idfPair_zero_one, idfPair_one_one]
  push_cast
  ring

/-- Cosine of the (content, A) pair is at most 2/23. -/
lemma cosineSim_exA_le : cosineSim exPairsA ≤ 2 / 23 := by
  have hc : (1 : ℝ) ≤ Real.log (3 / 2) + 1 := one_le_idfBase
  unfold cosineSim
  rw [dotTfidf_exA, normSqFst_exA, normSqSnd_exA]
  have hs : (23 : ℝ) ≤ Real.sqrt (1 + 29 * (Real.log (3 / 2) + 1) ^ 2) *
      Real.sqrt (4 + 14 * (Real.log (3 / 2) + 1) ^ 2) := by
    rw [← Real.sqrt_mul (by positivity)]
    have hL2 : (1 : ℝ) ≤ (Real.log (3 / 2) + 1) ^ 2 := by nlinarith
    have h529 : (529 : ℝ) ≤ (1 + 29 * (Real.log (3 / 2) + 1) ^ 2) *
        (4 + 14 * (Real.log (3 / 2) + 1) ^ 2) := by nlinarith
    have h23 : (23 : ℝ) = Real.sqrt 529 := by
      rw [show (529 : ℝ) = 23 ^ 2 by norm_num, Real.sqrt_sq (by norm_num)]
    rw [h23]
    exact Real.sqrt_le_sqrt h529
  calc (2 : ℝ) / (Real.sqrt (1 + 29 * (Real.log (3 / 2) + 1) ^ 2) *
        Real.sqrt (4 + 14 * (Real.log (3 / 2) + 1) ^ 2))
      ≤ 2 / 23 := by
        apply div_le_div_of_nonneg_left (by norm_num) (by norm_num) hs

/-- Cosine of the (content, B) pair is at most 1/16. -/
lemma cosineSim_exB_le : cosineSim exPairsB ≤ 1 / 16 := by
  have hc : (1 : ℝ) ≤ Real.log (3 / 2) + 1 := one_le_idfBase
  unfold cosineSim
  rw [dotTfidf_exB, normSqFst_exB, normSqSnd_exB]
  have hs : (16 : ℝ) ≤ Real.sqrt (1 + 29 * (Real.log (3 / 2) + 1) ^ 2) *
      Real.sqrt (1 + 8 * (Real.log (3 / 2) + 1) ^ 2) := by
    rw [← Real.sqrt_mul (by positivity)]
    have hL2 : (1 : ℝ) ≤ (Real.log (3 / 2) + 1) ^ 2 := by nlinarith
    have h256 : (256 : ℝ) ≤ (1 + 29 * (Real.log (3 / 2) + 1) ^ 2) *
        (1 + 8 * (Real.log (3 / 2) + 1) ^ 2) := by nlinarith
    have h16 : (16 : ℝ) = Real.sqrt 256 := by
      rw [show (256 : ℝ) = 16 ^ 2 by norm_num, Real.sqrt_sq (by norm_num)]
    rw [h16]
    exact Real.sqrt_le_sqrt h256
  calc (1 : ℝ) / (Real.sqrt (1 + 29 * (Real.log (3 / 2) + 1) ^ 2) *
        Real.sqrt (1 + 8 * (Real.log (3 / 2) + 1) ^ 2))
      ≤ 1 / 16 := by
        apply div_le_div_of_nonneg_left (by norm_num) (by norm_num) hs

/-- Unfolding of the scorer on a pair whose vocabulary is nonempty. -/
lemma calculate_relevance_score_eval (ct ut : String) (d : UrlData) (c : String)
    (h : featList ct ut ≠ []) :
    calculate_relevance_score ct ut d c =
      cosineSim (countPairs ct ut) * 0.7 +
        (if kwWords c = [] then (0 : ℝ)
         else ((kwWords c).inter (kwWords ut)).length /
           ((kwWords c).length : ℝ)) * 0.3 := by
  unfold calculate_relevance_score
  rw [if_neg h]

set_option maxRecDepth 20000 in
/-- Keyword-overlap data of the (content, A) pair: ten keyword tokens in the
chunk, none shared with the destination text. -/
lemma kwFacts_exA :
    kwWords exContent ≠ [] ∧
    (kwWords exContent).length = 10 ∧
    ((kwWords exContent).inter (kwWords (combinedText exDataA))).length = 0 := by
  refine ⟨by decide, by decide, by decide⟩

set_option maxRecDepth 20000 in
/-- Keyword-overlap data of the (content, B) pair: one shared keyword token
out of ten. -/
lemma kwFacts_exB :
    ((kwWords exContent).inter (kwWords (combinedText exDataB))).length = 1 := by
  decide

/-- The boosted score of the example destination A stays at or below the
0.20 candidate threshold. -/
lemma boostedScore_exA_le : boostedScore exContent exDataA ≤ 0.20 := by
  obtain ⟨hne, hlen, hint⟩ := kwFacts_exA
  have hfeat : featList exContent (combinedText exDataA) ≠ [] :=
    featList_ne_nil_of_countPairs countPairs_exA
  have hcalc : calculate_relevance_score exContent (combinedText exDataA) exDataA exContent =
      cosineSim exPairsA * 0.7 := by
    rw [calculate_relevance_score_eval _ _ _ _ hfeat, countPairs_exA, if_neg hne, hint, hlen]
    norm_num
  simp only [boostedScore]
  rw [if_pos (show exDataA.page_type = "Product" ∨ exDataA.page_type = "Glossary" ∨
    exDataA.page_type = "Guide" from Or.inr (Or.inr rfl))]
  rw [hcalc]
  have h := cosineSim_exA_le
  nlinarith

/-- The boosted score of the example destination B stays at or below the
0.20 candidate threshold. -/
lemma boostedScore_exB_le : boostedScore exContent exDataB ≤ 0.20 := by
  obtain ⟨hne, hlen, _⟩ := kwFacts_exA
  have hint := kwFacts_exB
  have hfeat : featList exContent (combinedText exDataB) ≠ [] :=
    featList_ne_nil_of_countPairs countPairs_exB
  have hcalc : calculate_relevance_score exContent (combinedText exDataB) exDataB exContent =
      cosineSim exPairsB * 0.7 + (1 / 10 : ℝ) * 0.3 := by
    rw [calculate_relevance_score_eval _ _ _ _ hfeat, countPairs_exB, if_neg hne, hint, hlen]
    norm_num
  simp only [boostedScore]
  rw [if_pos (show exDataB.page_type = "Product" ∨ exDataB.page_type = "Glossary" ∨
    exDataB.page_type = "Guide" from Or.inl rfl)]
  rw [hcalc]
  have h := cosineSim_exB_le
  nlinarith

set_option maxRecDepth 20000 in
/-- The chunker yields a single chunk on the example content. -/
lemma chunks_ex : extract_text_chunks exContent 200 = [⟨exContent, 0⟩] := by
  decide

/-- Fully applied unfolding of generate_suggestions on a nonempty catalog. -/
lemma generate_suggestions_eval (content : String) (db : Db) (limit : ℕ)
    (h : ¬ db = []) :
    generate_suggestions content db limit =
      (sortDescBy (fun s => s.score)
        (if (passOne limit
              (sortDescBy (fun s => s.score)
                ((extract_text_chunks content 200).map (chunkSuggestions db)).flatten)
              [] (fun _ => 0) []).1.length < limit
         then
           passTwo limit
             (sortDescBy (fun s => s.score)
               ((extract_text_chunks content 200).map (chunkSuggestions db)).flatten)
             (passOne limit
               (sortDescBy (fun s => s.score)
                 ((extract_text_chunks content 200).map (chunkSuggestions db)).flatten)
               [] (fun _ => 0) []).2
             (passOne limit
               (sortDescBy (fun s => s.score)
                 ((extract_text_chunks content 200).map (chunkSuggestions db)).flatten)
               [] (fun _ => 0) []).1
         else
           (passOne limit
             (sortDescBy (fun s => s.score)
               ((extract_text_chunks content 200).map (chunkSuggestions db)).flatten)
             [] (fun _ => 0) []).1)).take limit := by
  unfold generate_suggestions
  rw [if_neg h]

/-- The full pipeline on the end-to-end example of the spec: no candidate
reaches the 0.20 threshold, so the run yields no suggestion at all. -/
lemma generate_ex_run : generate_suggestions exContent exDb 2 = [] := by
  have hnil : chunkSuggestions exDb ⟨exContent, 0⟩ = [] := by
    apply chunkSuggestions_eq_nil
    intro p hp
    have hp2 : p = ("https://example.com/seo-guide", exDataA) ∨
        p = ("https://example.com/keyword-tool", exDataB) := by
      simpa [exDb] using hp
    rcases hp2 with rfl | rfl
    · exact not_lt.mpr boostedScore_exA_le
    · exact not_lt.mpr boostedScore_exB_le
  rw [generate_suggestions_eval _ _ _ (by decide)]
  rw [chunks_ex]
  simp only [List.map_cons, List.map_nil, hnil]
  simp [sortDescBy, passOne, passTwo]

/-! ## Evaluation of the quota example run -/

/-- The chunker yields a single chunk on the quota content. -/
lemma chunks_q : extract_text_chunks qContent 200 = [⟨qChunkText, 0⟩] := by
  decide

/-- Fitted counts of (quota chunk, first Blog destination): the chunk is all
stop words, the destination contributes its one non-stop token. -/
lemma countPairs_q1 : countPairs qChunkText (combinedText qData1) = [(0, 1)] := by
  decide

/-- Fitted counts of (quota chunk, second Blog destination). -/
lemma countPairs_q2 : countPairs qChunkText (combinedText qData2) = [(0, 1)] := by
  decide

/-- A zero chunk row gives cosine exactly zero. -/
lemma cosineSim_q : cosineSim [(0, 1)] = 0 := by
  unfold cosineSim dotTfidf
  simp

/-- Keyword facts of the quota pair: all four chunk keywords occur in the
destination text. -/
lemma kwFacts_q :
    kwWords qChunkText ≠ [] ∧ (kwWords qChunkText).length = 4 ∧
    ((kwWords qChunkText).inter (kwWords (combinedText qData1))).length = 4 ∧
    ((kwWords qChunkText).inter (kwWords (combinedText qData2))).length = 4 := by
  refine ⟨by decide, by decide, by decide, by decide⟩

/-- The boosted score of the first Blog destination is exactly 0.3. -/
lemma boostedScore_q1 : boostedScore qChunkText qData1 = 0.3 := by
  obtain ⟨hne, hlen, hint1, _⟩ := kwFacts_q
  have hfeat : featList qChunkText (combinedText qData1) ≠ [] :=
    featList_ne_nil_of_countPairs countPairs_q1
  simp only [boostedScore]
  rw [if_neg (by decide : ¬ (qData1.page_type = "Product" ∨ qData1.page_type = "Glossary" ∨
    qData1.page_type = "Guide"))]
  rw [if_neg (by decide : ¬ qData1.page_type = "Landing Page")]
  rw [calculate_relevance_score_eval _ _ _ _ hfeat, countPairs_q1, if_neg hne, hint1, hlen,
    cosineSim_q]
  norm_num

/-- The boosted score of the second Blog destination is exactly 0.3. -/
lemma boostedScore_q2 : boostedScore qChunkText qData2 = 0.3 := by
  obtain ⟨hne, hlen, _, hint2⟩ := kwFacts_q
  have hfeat : featList qChunkText (combinedText qData2) ≠ [] :=
    featList_ne_nil_of_countPairs countPairs_q2
  simp only [boostedScore]
  rw [if_neg (by decide : ¬ (qData2.page_type = "Product" ∨ qData2.page_type = "Glossary" ∨
    qData2.page_type = "Guide"))]
  rw [if_neg (by decide : ¬ qData2.page_type = "Landing Page")]
  rw [calculate_relevance_score_eval _ _ _ _ hfeat, countPairs_q2, if_neg hne, hint2, hlen,
    cosineSim_q]
  norm_num

/-- The anchor selected for both quota destinations is the literal title
occurrence. -/
lemma anchor_q1 : suggest_anchor_text qChunkText qData1 = "Whatever becomes" := by
  decide

/-- Anchor of the second quota destination. -/
lemma anchor_q2 : suggest_anchor_text qChunkText qData2 = "Whatever becomes" := by
  decide

/-- Context snippet of the quota chunk. -/
lemma context_q : (qChunkText.toList.take 150).asString ++ "..." =
    "Whatever becomes nothing anyhow...." := by
  decide

/-- The candidate pass of the quota chunk yields exactly the two Blog
suggestions, in catalog order. -/
lemma chunkSuggestions_q :
    chunkSuggestions qDb ⟨qChunkText, 0⟩ = [qSugg1, qSugg2] := by
  unfold chunkSuggestions
  simp only [qDb, List.map_cons, List.map_nil]
  rw [boostedScore_q1, boostedScore_q2]
  rw [show sortDescBy (fun q => q.2)
      [(("https://example.com/b1", qData1), (0.3 : ℝ)), (("https://example.com/b2", qData2), (0.3 : ℝ))] =
      [(("https://example.com/b1", qData1), (0.3 : ℝ)), (("https://example.com/b2", qData2), (0.3 : ℝ))] from by
    simp only [sortDescBy, List.foldl_cons, List.foldl_nil, insertDescBy]
    rw [if_neg (lt_irrefl _)]]
  rw [show List.take 3
      [(("https://example.com/b1", qData1), (0.3 : ℝ)), (("https://example.com/b2", qData2), (0.3 : ℝ))] =
      [(("https://example.com/b1", qData1), (0.3 : ℝ)), (("https://example.com/b2", qData2), (0.3 : ℝ))] from rfl]
  rw [List.filter_cons, List.filter_cons, List.filter_nil]
  rw [if_pos (by norm_num : decide ((0.20 : ℝ) < (((("https://example.com/b1", qData1), (0.3 : ℝ))).2)) = true)]
  rw [if_pos (by norm_num : decide ((0.20 : ℝ) < (((("https://example.com/b2", qData2), (0.3 : ℝ))).2)) = true)]
  simp only [List.map_cons, List.map_nil, mkSuggestion]
  rw [anchor_q1, anchor_q2, context_q]
  simp only [qData1, qData2, qSugg1, qSugg2]

/-- The two equal-score suggestions are left in order by the stable sort. -/
lemma sorted_q : sortDescBy (fun s => s.score) [qSugg1, qSugg2] = [qSugg1, qSugg2] := by
  simp only [sortDescBy, List.foldl_cons, List.foldl_nil, insertDescBy]
  rw [if_neg (by norm_num [qSugg1, qSugg2] :
    ¬ ((fun s => s.score) qSugg1 < (fun s => s.score) qSugg2))]

/-- The first pass accepts nothing: both scores are at most 0.35. -/
lemma pass1_q : passOne 2 [qSugg1, qSugg2] [] (fun _ => 0) [] = ([], []) := by
  norm_num [passOne, qSugg1, qSugg2]

/-- The second pass accepts both Blog suggestions, ignoring the quotas. -/
lemma pass2_q : passTwo 2 [qSugg1, qSugg2] [] [] = [qSugg1, qSugg2] := by
  norm_num +decide [passTwo, qSugg1, qSugg2]

/-- The full pipeline on the quota example returns both Blog suggestions. -/
lemma generate_q_run : generate_suggestions qContent qDb 2 = [qSugg1, qSugg2] := by
  rw [generate_suggestions_eval _ _ _ (by decide)]
  rw [chunks_q]
  simp only [List.map_cons, List.map_nil, chunkSuggestions_q, List.flatten_cons,
    List.flatten_nil, List.append_nil]
  rw [sorted_q, pass1_q]
  simp only [List.length_nil]
  rw [if_pos (by norm_num : (0 : ℕ) < 2)]
  rw [pass2_q, sorted_q]
  rfl

/-! ## Structural invariants of the selection passes -/

/-- Every suggestion selected by the first pass was already selected or is a
walked candidate with score above 0.35. -/
lemma passOne_mem (limit : ℕ) :
    ∀ (l : List Suggestion) (seen : List String) (counts : String → ℕ)
      (acc : List Suggestion),
      ∀ s ∈ (passOne limit l seen counts acc).1,
        s ∈ acc ∨ (s ∈ l ∧ s.score > 0.35) := by
  intro l
  induction l with
  | nil =>
    intro seen counts acc s hs
    exact Or.inl hs
  | cons x rest ih =>
    intro seen counts acc s hs
    rw [passOne] at hs
    split_ifs at hs with h1 h2 h3 h4 h5
    · rcases ih _ _ _ s hs with h | ⟨hm, hsc⟩
      · exact Or.inl h
      · exact Or.inr ⟨List.mem_cons_of_mem x hm, hsc⟩
    · rcases ih _ _ _ s hs with h | ⟨hm, hsc⟩
      · exact Or.inl h
      · exact Or.inr ⟨List.mem_cons_of_mem x hm, hsc⟩
    · rcases ih _ _ _ s hs with h | ⟨hm, hsc⟩
      · exact Or.inl h
      · exact Or.inr ⟨List.mem_cons_of_mem x hm, hsc⟩
    · rcases List.mem_append.mp hs with h | h
      · exact Or.inl h
      · rw [List.mem_singleton] at h
        rw [h]
        exact Or.inr ⟨List.mem_cons_self x rest, h4⟩
    · rcases ih _ _ _ s hs with h | ⟨hm, hsc⟩
      · rcases List.mem_append.mp h with h | h
        · exact Or.inl h
        · rw [List.mem_singleton] at h
          rw [h]
          exact Or.inr ⟨List.mem_cons_self x rest, h4⟩
      · exact Or.inr ⟨List.mem_cons_of_mem x hm, hsc⟩
    · rcases ih _ _ _ s hs with h | ⟨hm, hsc⟩
      · exact Or.inl h
      · exact Or.inr ⟨List.mem_cons_of_mem x hm, hsc⟩

/-- Every suggestion selected by the second pass was already selected or is a
walked candidate with score above 0.25. -/
lemma passTwo_mem (limit : ℕ) :
    ∀ (l : List Suggestion) (seen : List String) (acc : List Suggestion),
      ∀ s ∈ passTwo limit l seen acc,
        s ∈ acc ∨ (s ∈ l ∧ s.score > 0.25) := by
  intro l
  induction l with
  | nil =>
    intro seen acc s hs
    exact Or.inl hs
  | cons x rest ih =>
    intro seen acc s hs
    rw [passTwo] at hs
    split_ifs at hs with h1 h2 h3
    · rcases ih _ _ s hs with h | ⟨hm, hsc⟩
      · exact Or.inl h
      · exact Or.inr ⟨List.mem_cons_of_mem x hm, hsc⟩
    · rcases List.mem_append.mp hs with h | h
      · exact Or.inl h
      · rw [List.mem_singleton] at h
        rw [h]
        exact Or.inr ⟨List.mem_cons_self x rest, h2⟩
    · rcases ih _ _ s hs with h | ⟨hm, hsc⟩
      · rcases List.mem_append.mp h with h | h
        · exact Or.inl h
        · rw [List.mem_singleton] at h
          rw [h]
          exact Or.inr ⟨List.mem_cons_self x rest, h2⟩
      · exact Or.inr ⟨List.mem_cons_of_mem x hm, hsc⟩
    · rcases ih _ _ s hs with h | ⟨hm, hsc⟩
      · exact Or.inl h
      · exact Or.inr ⟨List.mem_cons_of_mem x hm, hsc⟩

/-- The first pass keeps destination urls distinct and records them as seen. -/
lemma passOne_nodup (limit : ℕ) :
    ∀ (l : List Suggestion) (seen : List String) (counts : String → ℕ)
      (acc : List Suggestion),
      ((acc.map (fun s => s.url)).Nodup) → (∀ s ∈ acc, s.url ∈ seen) →
      ((passOne limit l seen counts acc).1.map (fun s => s.url)).Nodup ∧
      (∀ s ∈ (passOne limit l seen counts acc).1,
        s.url ∈ (passOne limit l seen counts acc).2) := by
  intro l
  induction l with
  | nil =>
    intro seen counts acc hnd hseen
    exact ⟨hnd, hseen⟩
  | cons x rest ih =>
    intro seen counts acc hnd hseen
    rw [passOne]
    split_ifs with h1 h2 h3 h4 h5
    · exact ih _ _ _ hnd hseen
    · exact ih _ _ _ hnd hseen
    · exact ih _ _ _ hnd hseen
    · have hx : x.url ∉ acc.map (fun s => s.url) := by
        intro hmem
        rcases List.mem_map.mp hmem with ⟨t, ht, hurl⟩
        exact h1 (hurl ▸ hseen t ht)
      constructor
      · rw [List.map_append]
        simp [List.nodup_append, hnd, hx]
      · intro s hs
        rcases List.mem_append.mp hs with h | h
        · exact List.mem_cons_of_mem _ (hseen s h)
        · rw [List.mem_singleton] at h
          rw [h]
          exact List.mem_cons_self _ _
    · have hx : x.url ∉ acc.map (fun s => s.url) := by
        intro hmem
        rcases List.mem_map.mp hmem with ⟨t, ht, hurl⟩
        exact h1 (hurl ▸ hseen t ht)
      apply ih
      · rw [List.map_append]
        simp [List.nodup_append, hnd, hx]
      · intro s hs
        rcases List.mem_append.mp hs with h | h
        · exact List.mem_cons_of_mem _ (hseen s h)
        · rw [List.mem_singleton] at h
          rw [h]
          exact List.mem_cons_self _ _
    · exact ih _ _ _ hnd hseen

/-- The second pass keeps destination urls distinct. -/
lemma passTwo_nodup (limit : ℕ) :
    ∀ (l : List Suggestion) (seen : List String) (acc : List Suggestion),
      ((acc.map (fun s => s.url)).Nodup) → (∀ s ∈ acc, s.url ∈ seen) →
      ((passTwo limit l seen acc).map (fun s => s.url)).Nodup := by
  intro l
  induction l with
  | nil =>
    intro seen acc hnd hseen
    exact hnd
  | cons x rest ih =>
    intro seen acc hnd hseen
    rw [passTwo]
    split_ifs with h1 h2 h3
    · exact ih _ _ hnd hseen
    · have hx : x.url ∉ acc.map (fun s => s.url) := by
        intro hmem
        rcases List.mem_map.mp hmem with ⟨t, ht, hurl⟩
        exact h1 (hurl ▸ hseen t ht)
      rw [List.map_append]
      simp [List.nodup_append, hnd, hx]
    · have hx : x.url ∉ acc.map (fun s => s.url) := by
        intro hmem
        rcases List.mem_map.mp hmem with ⟨t, ht, hurl⟩
        exact h1 (hurl ▸ hseen t ht)
      apply ih
      · rw [List.map_append]
        simp [List.nodup_append, hnd, hx]
      · intro s hs
        rcases List.mem_append.mp hs with h | h
        · exact List.mem_cons_of_mem _ (hseen s h)
        · rw [List.mem_singleton] at h
          rw [h]
          exact List.mem_cons_self _ _
    · exact ih _ _ hnd hseen

/-- Distinctness of mapped elements survives the final sort and cut. -/
lemma take_sortDescBy_map_nodup (key : α → ℝ) (f : α → β) (l : List α) (n : ℕ)
    (h : (l.map f).Nodup) : (((sortDescBy key l).take n).map f).Nodup := by
  have hperm := (sortDescBy_perm key l).map f
  exact ((List.take_sublist _ _).map f).nodup (hperm.nodup_iff.mpr h)

/-! ## Claim C1 -/

/-- C1: for every content string, destination catalog and limit L, the list
returned by generate_suggestions has length at most L and contains no two
suggestions with the same destination url. -/
theorem C1_generate_limit_and_distinct_urls (content : String) (db : Db) (limit : ℕ) :
    (generate_suggestions content db limit).length ≤ limit ∧
    ((generate_suggestions content db limit).map (fun s => s.url)).Nodup := by
  by_cases hdb : db = []
  · unfold generate_suggestions
    rw [if_pos hdb]
    simp
  · rw [generate_suggestions_eval _ _ _ hdb]
    refine ⟨List.length_take_le _ _, ?_⟩
    have hp := passOne_nodup limit
      (sortDescBy (fun s => s.score)
        ((extract_text_chunks content 200).map (chunkSuggestions db)).flatten)
      [] (fun _ => 0) [] (by simp) (by simp)
    have hdiv : ((if (passOne limit
          (sortDescBy (fun s => s.score)
            ((extract_text_chunks content 200).map (chunkSuggestions db)).flatten)
          [] (fun _ => 0) []).1.length < limit
        then passTwo limit
          (sortDescBy (fun s => s.score)
            ((extract_text_chunks content 200).map (chunkSuggestions db)).flatten)
          (passOne limit
            (sortDescBy (fun s => s.score)
              ((extract_text_chunks content 200).map (chunkSuggestions db)).flatten)
            [] (fun _ => 0) []).2
          (passOne limit
            (sortDescBy (fun s => s.score)
              ((extract_text_chunks content 200).map (chunkSuggestions db)).flatten)
            [] (fun _ => 0) []).1
        else (passOne limit
          (sortDescBy (fun s => s.score)
            ((extract_text_chunks content 200).map (chunkSuggestions db)).flatten)
          [] (fun _ => 0) []).1).map (fun s => s.url)).Nodup := by
      split_ifs
      · exact passTwo_nodup limit _ _ _ hp.1 hp.2
      · exact hp.1
    exact take_sortDescBy_map_nodup _ _ _ _ hdiv

/-! ## Claim C10 -/

/-- C10: every suggestion returned by generate_suggestions has boosted score
strictly above 0.25; a suggestion scoring at most 0.25 is never returned. -/
theorem C10_generate_scores_above_quarter (content : String) (db : Db) (limit : ℕ) :
    ∀ s ∈ generate_suggestions content db limit, (0.25 : ℝ) < s.score := by
  intro s hs
  by_cases hdb : db = []
  · unfold generate_suggestions at hs
    rw [if_pos hdb] at hs
    simp at hs
  · rw [generate_suggestions_eval _ _ _ hdb] at hs
    have hs2 := List.mem_of_mem_take hs
    rw [mem_sortDescBy] at hs2
    split_ifs at hs2 with hlen
    · rcases passTwo_mem _ _ _ _ s hs2 with h | ⟨_, hsc⟩
      · rcases passOne_mem _ _ _ _ _ s h with h2 | ⟨_, hsc⟩
        · simp at h2
        · linarith
      · linarith
    · rcases passOne_mem _ _ _ _ _ s hs2 with h2 | ⟨_, hsc⟩
      · simp at h2
      · linarith

/-- Witness for C10 at a concrete input: the quota-example run returns a
suggestion, and the theorem applies to it. -/
theorem C10_witness :
    qSugg1 ∈ generate_suggestions qContent qDb 2 ∧ (0.25 : ℝ) < qSugg1.score := by
  have hmem : qSugg1 ∈ generate_suggestions qContent qDb 2 := by
    rw [generate_q_run]
    exact List.mem_cons_self _ _
  exact ⟨hmem, C10_generate_scores_above_quarter qContent qDb 2 qSugg1 hmem⟩

/-! ## Quota accounting of the first pass -/

/-- A natural strictly below a rational bound is strictly below its ceiling. -/
lemma count_lt_ceil {c : ℕ} {r : ℚ} (h : (c : ℚ) < r) : c + 1 ≤ Nat.ceil r :=
  Nat.succ_le_of_lt (Nat.lt_ceil.mpr h)

/-- Accepting a candidate in the first pass preserves the count bookkeeping
and both quota bounds. -/
lemma quota_accept (limit : ℕ) (counts : String → ℕ) (acc : List Suggestion)
    (x : Suggestion)
    (hc : ∀ pt, counts pt = (acc.filter (fun s => s.page_type = pt)).length)
    (h05 : ∀ pt, (acc.filter (fun s => s.page_type = pt)).length ≤
      Nat.ceil ((0.5 : ℚ) * limit))
    (h04 : (acc.filter (fun s => s.page_type = "Blog")).length ≤
      Nat.ceil ((0.4 : ℚ) * limit))
    (h2 : ¬ (x.page_type = "Blog" ∧ ((counts x.page_type : ℝ) ≥ (limit : ℝ) * 0.4)))
    (h3 : ¬ ((counts x.page_type : ℝ) ≥ (limit : ℝ) * 0.5)) :
    (∀ pt, (fun t => if t = x.page_type then counts x.page_type + 1 else counts t) pt =
      ((acc ++ [x]).filter (fun s => s.page_type = pt)).length) ∧
    (∀ pt, ((acc ++ [x]).filter (fun s => s.page_type = pt)).length ≤
      Nat.ceil ((0.5 : ℚ) * limit)) ∧
    ((acc ++ [x]).filter (fun s => s.page_type = "Blog")).length ≤
      Nat.ceil ((0.4 : ℚ) * limit) := by
  have hlen : ∀ pt : String, ((acc ++ [x]).filter (fun s => s.page_type = pt)).length =
      (acc.filter (fun s => s.page_type = pt)).length +
        (if x.page_type = pt then 1 else 0) := by
    intro pt
    rw [List.filter_append, List.length_append]
    congr 1
    by_cases hx : x.page_type = pt
    · simp [List.filter_cons, hx]
    · simp [List.filter_cons, hx]
  have hlt05 : ((counts x.page_type : ℚ)) < (0.5 : ℚ) * limit := by
    rw [not_le] at h3
    have hcast : (((counts x.page_type : ℚ)) : ℝ) < (((0.5 : ℚ) * limit : ℚ) : ℝ) := by
      push_cast
      linarith
    exact_mod_cast hcast
  refine ⟨?_, ?_, ?_⟩
  · intro pt
    rw [hlen pt]
    by_cases hx : pt = x.page_type
    · subst hx
      simp [hc]
    · simp [hx, Ne.symm hx, hc pt]
  · intro pt
    by_cases hx : x.page_type = pt
    · rw [hlen pt, if_pos hx]
      rw [← hx, ← hc x.page_type]
      exact count_lt_ceil hlt05
    · rw [hlen pt, if_neg hx]
      simpa using h05 pt
  · by_cases hx : x.page_type = "Blog"
    · rw [hlen "Blog", if_pos hx]
      have hlt04 : ((counts x.page_type : ℚ)) < (0.4 : ℚ) * limit := by
        have h4 : ¬ ((counts x.page_type : ℝ) ≥ (limit : ℝ) * 0.4) := fun hb => h2 ⟨hx, hb⟩
        rw [not_le] at h4
        have hcast : (((counts x.page_type : ℚ)) : ℝ) < (((0.4 : ℚ) * limit : ℚ) : ℝ) := by
          push_cast
          linarith
        exact_mod_cast hcast
      rw [← hc "Blog", ← hx]
      exact count_lt_ceil hlt04
    · rw [hlen "Blog", if_neg hx]
      simpa using h04

/-- The first pass respects both per-category quotas, given correct count
bookkeeping and bounds on the selection so far. -/
lemma passOne_quota (limit : ℕ) :
    ∀ (l : List Suggestion) (seen : List String) (counts : String → ℕ)
      (acc : List Suggestion),
      (∀ pt, counts pt = (acc.filter (fun s => s.page_type = pt)).length) →
      (∀ pt, (acc.filter (fun s => s.page_type = pt)).length ≤
        Nat.ceil ((0.5 : ℚ) * limit)) →
      ((acc.filter (fun s => s.page_type = "Blog")).length ≤
        Nat.ceil ((0.4 : ℚ) * limit)) →
      (∀ pt, ((passOne limit l seen counts acc).1.filter
        (fun s => s.page_type = pt)).length ≤ Nat.ceil ((0.5 : ℚ) * limit)) ∧
      (((passOne limit l seen counts acc).1.filter
        (fun s => s.page_type = "Blog")).length ≤ Nat.ceil ((0.4 : ℚ) * limit)) := by
  intro l
  induction l with
  | nil =>
    intro seen counts acc hc h05 h04
    exact ⟨h05, h04⟩
  | cons x rest ih =>
    intro seen counts acc hc h05 h04
    rw [passOne]
    split_ifs with h1 h2 h3 h4 h5
    · exact ih _ _ _ hc h05 h04
    · exact ih _ _ _ hc h05 h04
    · exact ih _ _ _ hc h05 h04
    · obtain ⟨_, k05, k04⟩ := quota_accept limit counts acc x hc h05 h04 h2 h3
      exact ⟨k05, k04⟩
    · obtain ⟨kc, k05, k04⟩ := quota_accept limit counts acc x hc h05 h04 h2 h3
      exact ih _ _ _ kc k05 k04
    · exact ih _ _ _ hc h05 h04

/-! ## Claim C2 -/

/-- Counterexample to C2: on the quota example with limit 2, both returned
suggestions are Blog, exceeding the ceiling 1 of 0.4 * 2, because the second
pass ignores the quotas. -/
theorem C2_counterexample :
    ¬ (((generate_suggestions qContent qDb 2).filter
      (fun s => s.page_type = "Blog")).length ≤ Nat.ceil ((0.4 : ℚ) * 2)) := by
  have hfil : ((generate_suggestions qContent qDb 2).filter
      (fun s => s.page_type = "Blog")).length = 2 := by
    rw [generate_q_run]
    simp [qSugg1, qSugg2]
  have hceil : Nat.ceil ((0.4 : ℚ) * 2) = 1 := by
    rw [show ((0.4 : ℚ) * 2) = 4 / 5 by norm_num]
    rw [Nat.ceil_eq_iff (by norm_num)]
    norm_num
  rw [hfil, hceil]
  norm_num

/-- C2 amended: the quota policy holds for the selection made by the
quota-constrained first pass (score above 0.35): there no category exceeds
the ceiling of 0.5 * limit and Blog never exceeds the ceiling of
0.4 * limit. The final returned list can exceed the quotas because the
second pass re-walks the candidates ignoring them. -/
theorem C2_amended_first_pass_quotas (cands : List Suggestion) (limit : ℕ) :
    ∀ pt,
      ((passOne limit cands [] (fun _ => 0) []).1.filter
        (fun s => s.page_type = pt)).length ≤ Nat.ceil ((0.5 : ℚ) * limit) ∧
      ((passOne limit cands [] (fun _ => 0) []).1.filter
        (fun s => s.page_type = "Blog")).length ≤ Nat.ceil ((0.4 : ℚ) * limit) := by
  have h := passOne_quota limit cands [] (fun _ => 0) [] (by simp) (by simp) (by simp)
  exact fun pt => ⟨h.1 pt, h.2⟩

/-! ## Claim C7 -/

/-- C7: the ranking score of every (chunk, destination) pair is the raw
relevance score multiplied by the claimed category factor: 1.10 for Product,
Glossary and Guide, 1.05 for the landing category, 1.0 otherwise. -/
theorem C7_category_boost (chunk_text : String) (d : UrlData) :
    boostedScore chunk_text d =
      calculate_relevance_score chunk_text (combinedText d) d chunk_text *
        categoryBoost_spec d.page_type := by
  unfold boostedScore categoryBoost_spec
  split_ifs with h1 h2 <;> ring

/-! ## Claim C3 -/

/-- C3: the scorer is a total function and degrades to exactly 0.0 whenever
TF-IDF vectorization of the pair fails, the failure condition being an empty
fitted vocabulary (the ValueError of sklearn caught by the bare except). As
every stage of the embedded pipeline is a total function, no exception
propagates past generate_suggestions. -/
theorem C3_scoring_failure_degrades_to_zero (content_text url_text : String)
    (d : UrlData) (content : String) (h : featList content_text url_text = []) :
    calculate_relevance_score content_text url_text d content = 0 := by
  unfold calculate_relevance_score
  rw [if_pos h]

/-- Witness for C3: a pair made of single-letter words has an empty
vocabulary and scores exactly zero. -/
theorem C3_witness :
    featList "a" "b" = [] ∧ calculate_relevance_score "a" "b" exDataA "a" = 0 :=
  ⟨by decide, C3_scoring_failure_degrades_to_zero "a" "b" exDataA "a" (by decide)⟩

/-! ## Claim C4 -/

/-- Dedup does not change the underlying finite set. -/
lemma dedup_toFinset {α : Type} [DecidableEq α] (l : List α) :
    l.dedup.toFinset = l.toFinset := by
  ext a
  simp [List.mem_toFinset, List.mem_dedup]

/-- The keyword token list realises the spec token set. -/
lemma kwWords_toFinset (s : String) : (kwWords s).toFinset = kwTokensSpec s := by
  unfold kwWords kwTokensSpec
  exact dedup_toFinset _

/-- The keyword token list has no duplicates. -/
lemma kwWords_nodup (s : String) : (kwWords s).Nodup :=
  List.nodup_dedup _

/-- Emptiness of the keyword list matches emptiness of the spec token set. -/
lemma kwWords_eq_nil_iff (s : String) : kwWords s = [] ↔ kwTokensSpec s = ∅ := by
  rw [← kwWords_toFinset, List.toFinset_eq_empty_iff]

/-- The keyword list length is the spec token set cardinality. -/
lemma kwWords_length_eq (s : String) : (kwWords s).length = (kwTokensSpec s).card := by
  rw [← kwWords_toFinset, List.toFinset_card_of_nodup (kwWords_nodup s)]

/-- The intersection length of the keyword lists is the intersection
cardinality of the spec token sets. -/
lemma kwWords_inter_length_eq (c u : String) :
    ((kwWords c).inter (kwWords u)).length =
      (kwTokensSpec c ∩ kwTokensSpec u).card := by
  rw [← kwWords_toFinset, ← kwWords_toFinset, ← List.toFinset_inter,
    List.toFinset_card_of_nodup (List.Nodup.inter (kwWords u) (kwWords_nodup c))]
  rfl

/-- C4: on every pair whose vectorization succeeds, the returned value is 0.7
times the TF-IDF cosine plus 0.3 times the keyword overlap, with the overlap
as the spec defines it (shared lower-cased tokens of length at least four
over the chunk tokens, zero when the chunk has none). -/
theorem C4_score_formula (chunk_text url_text : String) (d : UrlData)
    (h : featList chunk_text url_text ≠ []) :
    calculate_relevance_score chunk_text url_text d chunk_text =
      0.7 * cosineSim (countPairs chunk_text url_text) +
      0.3 * keyword_overlap_spec chunk_text url_text := by
  rw [calculate_relevance_score_eval _ _ _ _ h]
  unfold keyword_overlap_spec
  by_cases hc : kwWords chunk_text = []
  · rw [if_pos hc, if_pos ((kwWords_eq_nil_iff chunk_text).mp hc)]
    ring
  · rw [if_neg hc, if_neg (fun he => hc ((kwWords_eq_nil_iff chunk_text).mpr he))]
    rw [kwWords_inter_length_eq, kwWords_length_eq]
    ring

/-- Witness for C4 at a concrete pair with nonempty vocabulary. -/
theorem C4_witness :
    featList qChunkText (combinedText qData1) ≠ [] ∧
    calculate_relevance_score qChunkText (combinedText qData1) qData1 qChunkText =
      0.7 * cosineSim (countPairs qChunkText (combinedText qData1)) +
      0.3 * keyword_overlap_spec qChunkText (combinedText qData1) :=
  ⟨featList_ne_nil_of_countPairs countPairs_q1,
   C4_score_formula qChunkText (combinedText qData1) qData1
     (featList_ne_nil_of_countPairs countPairs_q1)⟩

/-! ## Claim C5 -/

/-- The empty needle occurs in every haystack, as Python in does. -/
lemma containsSub_nil (hay : List Char) : containsSub [] hay = true := by
  unfold containsSub
  rw [List.any_eq_true]
  refine ⟨0, List.mem_range.mpr (Nat.succ_pos _), ?_⟩
  unfold matchesAt
  cases hay <;> rfl

/-- C5: when neither primary heading, title nor any sub-heading occurs
case-insensitively in the chunk, the anchor is the primary heading when
non-empty, else the title when non-empty, else the literal Learn more. Note
that the hypothesis forces the primary heading non-empty, since the empty
string occurs in every chunk; the code then returns the stored h1 field. -/
theorem C5_anchor_fallback (chunk : String) (d : UrlData)
    (h1m : containsSub (toLowerList d.h1) (toLowerList chunk) = false)
    (htm : containsSub (toLowerList d.title) (toLowerList chunk) = false)
    (h2m : ∀ h ∈ d.h2, containsSub (toLowerList h) (toLowerList chunk) = false) :
    suggest_anchor_text chunk d =
      if d.h1 ≠ "" then d.h1 else if d.title ≠ "" then d.title else "Learn more" := by
  have hne : d.h1 ≠ "" := by
    intro he
    rw [he] at h1m
    rw [show toLowerList "" = [] from rfl, containsSub_nil] at h1m
    exact absurd h1m (by simp)
  rw [if_pos hne]
  unfold suggest_anchor_text
  have hfm : (d.h2.filterMap (fun h =>
      if containsSub (toLowerList h) (toLowerList chunk) then
        some (sliceAt chunk.data (firstIdx (toLowerList chunk) (toLowerList h))
          (toLowerList h).length)
      else none)) = [] := by
    rw [List.filterMap_eq_nil_iff]
    intro h hh
    simp [h2m h hh]
  simp [h1m, htm, hfm]

/-- Witness for C5: a chunk containing no metadata text falls back to the
primary heading. -/
theorem C5_witness :
    (containsSub (toLowerList exDataA.h1) (toLowerList "xyz") = false ∧
     containsSub (toLowerList exDataA.title) (toLowerList "xyz") = false) ∧
    suggest_anchor_text "xyz" exDataA = "Ultimate SEO Guide" := by
  refine ⟨⟨by decide, by decide⟩, ?_⟩
  rw [C5_anchor_fallback "xyz" exDataA (by decide) (by decide) (by simp [exDataA])]
  decide

/-! ## Claim C8 -/

/-- Counterexample to C8: the end-to-end example of the spec does not return
two suggestions; it returns none, because both boosted scores stay below the
0.20 candidate threshold. -/
theorem C8_counterexample : (generate_suggestions exContent exDb 2).length ≠ 2 := by
  rw [generate_ex_run]
  simp

/-- C8 amended: on the end-to-end example input the code returns the empty
suggestion list, every candidate score falling at or below 0.20. -/
theorem C8_amended_example_empty : generate_suggestions exContent exDb 2 = [] :=
  generate_ex_run

/-! ## Claim C6 -/

/-- Scanning a punctuation-free tail yields a single piece. -/
lemma splitPunctScan_no_punct :
    ∀ (l acc : List Char), (∀ c ∈ l, sentencePunct c = false) →
      splitPunctSkip.splitPunctScan l acc = [acc.reverse ++ l] := by
  intro l
  induction l with
  | nil =>
    intro acc _
    simp [splitPunctSkip.splitPunctScan]
  | cons c rest ih =>
    intro acc h
    rw [splitPunctSkip.splitPunctScan]
    rw [if_neg (by simp [h c (List.mem_cons_self c rest)])]
    rw [ih (c :: acc) (fun x hx => h x (List.mem_cons_of_mem c hx))]
    simp

/-- re.split on punctuation-free content returns the whole content. -/
lemma splitPunct_no_punct (l : List Char)
    (h : ∀ c ∈ l, sentencePunct c = false) : splitPunct l = [l] := by
  unfold splitPunct
  rw [splitPunctScan_no_punct l [] h]
  simp

/-- The head surviving dropWhile falsifies the predicate. -/
lemma dropWhile_head_false {α : Type} {p : α → Bool} :
    ∀ {l : List α} {c : α} {t : List α}, List.dropWhile p l = c :: t → p c = false := by
  intro l
  induction l with
  | nil => intro c t h; simp at h
  | cons a rest ih =>
    intro c t h
    rw [List.dropWhile_cons] at h
    split_ifs at h with ha
    · exact ih h
    · cases h
      exact Bool.not_eq_true _ ▸ (by simpa using ha)

/-- Stripping all-whitespace text yields the empty list. -/
lemma pyStrip_all_space {l : List Char} (h : ∀ c ∈ l, pySpace c = true) :
    pyStrip l = [] := by
  unfold pyStrip
  have h1 : l.rdropWhile pySpace = [] := by
    rw [List.rdropWhile]
    rw [List.dropWhile_eq_nil_iff.mpr (fun x hx => h x (List.mem_reverse.mp hx))]
    rfl
  rw [h1]
  rfl

/-- Stripping text with a non-whitespace character is nonempty. -/
lemma pyStrip_ne_nil {l : List Char} (h : ∃ c ∈ l, pySpace c = false) :
    pyStrip l ≠ [] := by
  intro he
  unfold pyStrip at he
  have hall : ∀ c ∈ l.rdropWhile pySpace, pySpace c = true :=
    List.dropWhile_eq_nil_iff.mp he
  obtain ⟨c, hc, hcf⟩ := h
  have hct : pySpace c = true := by
    have hsplit := List.takeWhile_append_dropWhile (p := pySpace) (l := l.reverse)
    have hcrev : c ∈ l.reverse := List.mem_reverse.mpr hc
    rw [← hsplit] at hcrev
    rcases List.mem_append.mp hcrev with h1 | h2
    · exact List.mem_takeWhile_imp h1
    · exact hall c (by rw [List.rdropWhile]; exact List.mem_reverse.mpr h2)
  rw [hct] at hcf
  cases hcf

/-- The head of a nonempty stripped text is not whitespace. -/
lemma pyStrip_head_false {l : List Char} {c : Char} {t : List Char}
    (h : pyStrip l = c :: t) : pySpace c = false := by
  unfold pyStrip at h
  exact dropWhile_head_false h

/-- Stripping after appending the ". " buffer separator to stripped text
keeps the text and the period: the source of the trailing period of chunk
texts. -/
lemma pyStrip_append_period {l : List Char} (h : pyStrip l ≠ []) :
    pyStrip (pyStrip l ++ ('.' :: [' '])) = pyStrip l ++ ['.'] := by
  obtain ⟨c, t, hct⟩ : ∃ c t, pyStrip l = c :: t := by
    cases hp : pyStrip l with
    | nil => exact absurd hp h
    | cons c t => exact ⟨c, t, rfl⟩
  have hc : pySpace c = false := pyStrip_head_false hct
  have h1 : List.rdropWhile pySpace (pyStrip l ++ ('.' :: [' '])) = pyStrip l ++ ['.'] := by
    rw [show pyStrip l ++ ('.' :: [' ']) = (pyStrip l ++ ['.']) ++ [' '] by simp]
    rw [List.rdropWhile_concat_pos pySpace (pyStrip l ++ ['.']) ' ' (by decide)]
    rw [List.rdropWhile_concat_neg pySpace (pyStrip l) '.' (by decide)]
  show List.dropWhile pySpace (List.rdropWhile pySpace (pyStrip l ++ ('.' :: [' ']))) =
    pyStrip l ++ ['.']
  rw [h1, hct]
  rw [List.cons_append, List.dropWhile_cons, if_neg (by simp [hc])]

/-- Fully applied unfolding of extract_text_chunks. -/
lemma extract_text_chunks_eval (content : String) (n : ℕ) :
    extract_text_chunks content n =
      if (chunkLoop content.toList n (splitPunct content.toList) [] 0 []).1 = []
      then (chunkLoop content.toList n (splitPunct content.toList) [] 0 []).2.2
      else (chunkLoop content.toList n (splitPunct content.toList) [] 0 []).2.2 ++
        [⟨(pyStrip (chunkLoop content.toList n (splitPunct content.toList) [] 0 []).1).asString,
          (chunkLoop content.toList n (splitPunct content.toList) [] 0 []).2.1⟩] := rfl

/-- On a punctuation-free content with a non-whitespace character, the loop
ends with the stripped content plus separator in the buffer and no flushed
chunk; the recorded position depends on which buffer branch ran. -/
lemma chunkLoop_single (content : String)
    (hs : pyStrip content.toList ≠ []) :
    ∃ st : Int, chunkLoop content.toList 200 [content.toList] [] 0 [] =
      (pyStrip content.toList ++ ('.' :: [' ']), st, []) := by
  simp only [chunkLoop]
  rw [if_neg hs]
  by_cases hlen : ([] : List Char).length + (pyStrip content.toList).length < 200
  · rw [if_pos hlen]
    exact ⟨0, by simp [chunkLoop]⟩
  · rw [if_neg hlen]
    exact ⟨strFind content.toList (pyStrip content.toList) 0, by simp [chunkLoop]⟩

/-- C6: on content with at least one non-whitespace character and no
sentence punctuation, the chunker yields exactly one chunk whose text is the
trimmed content followed by a period (the separator appended by the buffer);
on whitespace-only content it yields the empty sequence. -/
theorem C6_no_punctuation_single_chunk (content : String) :
    ((∃ c ∈ content.toList, pySpace c = false) →
      (∀ c ∈ content.toList, sentencePunct c = false) →
      (extract_text_chunks content 200).map (fun ch => ch.text) =
        [(pyStrip content.toList ++ ['.']).asString]) ∧
    ((∀ c ∈ content.toList, pySpace c = true) →
      extract_text_chunks content 200 = []) := by
  constructor
  · intro hn hp
    have hs : pyStrip content.toList ≠ [] := pyStrip_ne_nil hn
    rw [extract_text_chunks_eval]
    rw [splitPunct_no_punct content.toList hp]
    obtain ⟨st, hloop⟩ := chunkLoop_single content hs
    rw [hloop]
    rw [if_neg (by simp : ¬ (pyStrip content.toList ++ ('.' :: [' ']) = []))]
    simp only [List.nil_append, List.map_cons, List.map_nil]
    rw [pyStrip_append_period hs]
  · intro hw
    have hp : ∀ c ∈ content.toList, sentencePunct c = false := by
      intro c hc
      have hwc := hw c hc
      by_contra hb
      rw [Bool.not_eq_false] at hb
      simp only [sentencePunct, Bool.or_eq_true, decide_eq_true_eq] at hb
      rcases hb with (rfl | rfl) | rfl <;> simp [pySpace] at hwc
    rw [extract_text_chunks_eval]
    rw [splitPunct_no_punct content.toList hp]
    have hse : pyStrip content.toList = [] := pyStrip_all_space hw
    simp only [chunkLoop]
    rw [if_pos hse]
    simp [chunkLoop]

/-- Counterexample to C6: on the punctuation-free content abc the single
chunk text is abc followed by a period, not the trimmed content itself. -/
theorem C6_counterexample :
    ¬ ((extract_text_chunks "abc" 200).map (fun ch => ch.text) = ["abc"]) := by
  decide

/-- Witness for C6: the amended statement applied at the concrete contents
abc and a blank string. -/
theorem C6_witness :
    (extract_text_chunks "abc" 200).map (fun ch => ch.text) = ["abc."] ∧
    extract_text_chunks "  " 200 = [] := by
  constructor
  · have h := (C6_no_punctuation_single_chunk "abc").1 (by decide) (by decide)
    rw [h]
    decide
  · exact (C6_no_punctuation_single_chunk "  ").2 (by decide)

/-! ## Claim C9 -/

/-- The import row loop, characterised: the imported count is the number of
valid rows, the error list collects one message per invalid row, and the
catalog receives exactly the valid rows in order. -/
lemma importLoop_spec :
    ∀ (pairs : List (ℕ × Row)) (imported : ℕ) (errors : List String) (db : Db),
      importLoop pairs imported errors db =
        (imported + (pairs.filter (fun p => !(rowInvalid p.2))).length,
         errors ++ (pairs.filter (fun p => rowInvalid p.2)).map (fun p => rowErrorMsg p.1),
         (pairs.filter (fun p => !(rowInvalid p.2))).foldl (fun d p => addRow d p.2) db) := by
  intro pairs
  induction pairs with
  | nil =>
    intro imported errors db
    simp [importLoop]
  | cons x rest ih =>
    intro imported errors db
    obtain ⟨i, r⟩ := x
    rw [importLoop]
    by_cases hb : rowInvalid r
    · rw [if_pos hb, ih]
      simp [List.filter_cons, hb]
    · rw [if_neg hb, ih]
      simp only [List.filter_cons, hb, Bool.not_false, Bool.false_eq_true, if_false, if_true,
        List.length_cons, List.map_cons, List.foldl_cons]
      refine Prod.ext (by simp; omega) rfl

/-- Filtering an enumeration on the element part preserves the length of the
plain filtered list. -/
lemma enumFrom_filter_length {α : Type} (q : α → Bool) :
    ∀ (l : List α) (n : ℕ),
      ((List.enumFrom n l).filter (fun p => q p.2)).length = (l.filter q).length := by
  intro l
  induction l with
  | nil => intro n; rfl
  | cons a rest ih =>
    intro n
    rw [List.enumFrom_cons]
    by_cases hq : q a
    · simp [List.filter_cons, hq, ih]
    · simp [List.filter_cons, hq, ih]

/-- Folding the element part of a filtered enumeration equals folding the
plain filtered list. -/
lemma enumFrom_filter_foldl {α β : Type} (q : α → Bool) (g : β → α → β) :
    ∀ (l : List α) (n : ℕ) (d : β),
      ((List.enumFrom n l).filter (fun p => q p.2)).foldl (fun d p => g d p.2) d =
        (l.filter q).foldl g d := by
  intro l
  induction l with
  | nil => intro n d; rfl
  | cons a rest ih =>
    intro n d
    rw [List.enumFrom_cons]
    by_cases hq : q a
    · simp [List.filter_cons, hq, ih]
    · simp [List.filter_cons, hq, ih]

/-- C9: the bulk import loop never aborts: every row with a missing required
field contributes exactly one error message carrying its spreadsheet row
number and adds nothing to the catalog, while every valid row is imported
and counted (partial success). -/
theorem C9_import_partial_success (rows : List Row) (db : Db) :
    (import_urls_from_file rows db).1 = (rows.filter (fun r => !(rowInvalid r))).length ∧
    (import_urls_from_file rows db).2.1 =
      (rows.enum.filter (fun p => rowInvalid p.2)).map (fun p => rowErrorMsg p.1) ∧
    (import_urls_from_file rows db).2.2 =
      (rows.filter (fun r => !(rowInvalid r))).foldl addRow db ∧
    ∀ idx : ℕ, ∃ pre post : String,
      rowErrorMsg idx = pre ++ toString (idx + 2) ++ post := by
  unfold import_urls_from_file
  rw [importLoop_spec]
  refine ⟨?_, by simp, ?_, ?_⟩
  · simpa using enumFrom_filter_length (fun r => !(rowInvalid r)) rows 0
  · simpa using enumFrom_filter_foldl (fun r => !(rowInvalid r)) addRow rows 0 db
  · intro idx
    exact ⟨"Row ", ": Missing required field (URL, Title, or H1)", rfl⟩
